import Mathlib

/-!
Shallow embedding of the three entry points of this repository:

* `scripts/lambda_handler.py` (namespace `ML`): event dispatch, S3-trigger
  ingestion of raw CSV files, optional launch of a managed training job,
  bulk processing, cleanup of old model artifacts, metric emission.
* `scripts/batch_inference.py` (namespace `BI`): batch inference handler
  that loads a model artifact from object storage, runs predictions over a
  bulk input file, and writes one bulk output file.
* `scripts/train_model.py` (namespace `TR`): the SageMaker training script,
  restricted to its storage-visible behaviour (artifact persistence).

Python strings are embedded as `List Char`; the external services
(object storage, the metrics API, SageMaker, the ML library) are modelled
by an explicit store, explicit effect traces, and outcome parameters for
calls whose results the repository does not compute itself.  Numeric cell
values use `ℚ` in place of floating point.
-/

/-- Embedded Python string. -/
abbrev Str := List Char

/-- `isPrefL p s` : does `s` start with `p`?  (List-level prefix test.) -/
def isPrefL : Str → Str → Bool
  | [], _ => true
  | _ :: _, [] => false
  | a :: ps, b :: ss => a == b && isPrefL ps ss

/-- Embedding of Python `s.startswith(p)`. -/
def startsWithL (s p : Str) : Bool := isPrefL p s

/-- Embedding of Python `s.endswith(p)`. -/
def endsWithL (s p : Str) : Bool := isPrefL p.reverse s.reverse

/-- Fuel-driven worker for `replaceL`; the fuel dominates the length of
the remaining input, so the top entry point never exhausts it. -/
def replaceFuel (old new : Str) : Nat → Str → Str
  | _, [] => []
  | 0, s => s
  | f + 1, c :: rest =>
    if isPrefL old (c :: rest) && !old.isEmpty then
      new ++ replaceFuel old new f ((c :: rest).drop old.length)
    else
      c :: replaceFuel old new f rest

/-- Embedding of Python `s.replace(old, new)`: replaces every
non-overlapping occurrence of `old` from left to right (for nonempty
`old`, which is the only way the repository calls it). -/
def replaceL (old new s : Str) : Str := replaceFuel old new s.length s

/-- Embedding of Python `s.lower()` (character-wise). -/
def lowerL (s : Str) : Str := s.map Char.toLower

/-- Values appearing in the Python dicts the handlers return; nested data
payloads are abstracted to `other`. -/
inductive PyVal where
  | num (n : Int)
  | str (s : Str)
  | other
deriving DecidableEq

/-- A Python dict used as a handler response. -/
abbrev Resp := List (Str × PyVal)

/-- Key membership in a response dict. -/
def hasKey (r : Resp) (k : Str) : Bool := r.any (fun p => p.1 == k)

/-- The `statusCode` entry of a response dict, when present. -/
def statusOf (r : Resp) : Option PyVal :=
  (r.find? (fun p => p.1 == ("statusCode".toList))).map (fun p => p.2)

namespace ML

/-- One stored object: bucket, key, content, last-modified stamp. -/
structure Entry where
  bucket : Str
  key : Str
  content : Str
  lm : Nat
deriving DecidableEq

/-- The object store (most recent write first; `getObject` reads the
first matching entry). -/
abbrev Store := List Entry

/-- `s3_client.get_object` (content of the object, `none` = `NoSuchKey`). -/
def getObject (st : Store) (b k : Str) : Option Str :=
  (st.find? (fun e => e.bucket == b && e.key == k)).map (fun e => e.content)

/-- A write into the store (used by `copy_object`). -/
def putObject (st : Store) (b k c : Str) : Store := ⟨b, k, c, 0⟩ :: st

/-- `s3_client.list_objects_v2(Bucket=b, Prefix=pre)`: the listed entries. -/
def listEntries (st : Store) (b pre : Str) : List Entry :=
  st.filter (fun e => e.bucket == b && startsWithL e.key pre)

/-- The keys of a listing. -/
def listKeys (st : Store) (b pre : Str) : List Str :=
  (listEntries st b pre).map (fun e => e.key)

/-- `s3_client.delete_object(Bucket=b, Key=k)`. -/
def removeKey (st : Store) (b k : Str) : Store :=
  st.filter (fun e => !(e.bucket == b && e.key == k))

/-- Deleting a list of objects in turn. -/
def removeAll (st : Store) (b : Str) : List Entry → Store
  | [] => st
  | o :: os => removeAll (removeKey st b o.key) b os

/-- Observable external calls made by `scripts/lambda_handler.py`. -/
inductive Eff where
  | getObj (bucket key : Str)
  | copyObj (bucket src dst : Str)
  | putMetric (name : Str) (value : Nat)
  | listReq (bucket pre : Str)
  | createTrainingJob (jobName : Str)
  | deleteObj (bucket key : Str)
deriving DecidableEq

/-- Result dict built by `process_data_file` for one file. -/
inductive FileResult where
  | processed (file processed_location : Str)
  | error (file : Str)
deriving DecidableEq

/-- Result dict built by `start_training_job`. -/
inductive TrainResult where
  | started (jobName : Str)
  | failed
deriving DecidableEq

/-- Items accumulated in `processed_files` by `handle_s3_trigger`. -/
inductive ProcItem where
  | fileRes (r : FileResult)
  | trainRes (r : TrainResult)
deriving DecidableEq

/-- One record of an S3 event (`record['s3']['bucket']['name']`,
`record['s3']['object']['key']`). -/
structure Record where
  bucket : Str
  key : Str
deriving DecidableEq

/-- A Lambda event, as the dispatcher inspects it: presence of `Records`,
`action`, `trigger_type`. -/
structure Event where
  records : Option (List Record)
  action : Option Str
  trigger_type : Option Str

/-- Outcomes of the external calls the handler does not control:
whether `create_training_job` succeeds, the job-name timestamp, and the
response timestamp. -/
structure Ext where
  sagemakerOk : Bool
  ts : Str
  now : Str

/-- `create_response(status_code, message, data=None)`. -/
def create_response (sc : Int) (msg : Str) (data : Option PyVal) (now : Str) : Resp :=
  [(("statusCode".toList), PyVal.num sc),
   (("message".toList), PyVal.str msg),
   (("timestamp".toList), PyVal.str now)] ++
  (match data with
   | some d => [(("data".toList), d)]
   | none => [])

/-- `process_data_file(bucket_name, object_key)`: read the object, raise
on empty content, copy it to the `processed/` key, emit one metric.  Any
exception is caught and reported as an error result. -/
def process_data_file (st : Store) (b k : Str) : Store × List Eff × FileResult :=
  match getObject st b k with
  | none => (st, [Eff.getObj b k], FileResult.error k)
  | some content =>
    if content.isEmpty then
      (st, [Eff.getObj b k], FileResult.error k)
    else
      let pk := replaceL ("raw/".toList) ("processed/".toList) k
      (putObject st b pk content,
       [Eff.getObj b k, Eff.copyObj b k pk,
        Eff.putMetric ("DataFileProcessed".toList) 1],
       FileResult.processed k pk)

/-- `should_trigger_training(bucket_name)`: at least one `.csv` key under
the `processed/` prefix. -/
def should_trigger_training (st : Store) (b : Str) : Bool :=
  (listKeys st b ("processed/".toList)).any
    (fun k => endsWithL k (".csv".toList))

/-- `start_training_job()`: the `create_training_job` call, and a metric
on success; on failure the exception is caught and an error dict built. -/
def start_training_job (ok : Bool) (ts : Str) : List Eff × TrainResult :=
  let name := ("ml-training-job-".toList) ++ ts
  if ok then
    ([Eff.createTrainingJob name,
      Eff.putMetric ("TrainingJobStarted".toList) 1],
     TrainResult.started name)
  else
    ([Eff.createTrainingJob name], TrainResult.failed)

/-- The raw dict `start_training_job` returns (not a `create_response`). -/
def trainResultResp : TrainResult → Resp
  | TrainResult.started name =>
    [(("training_job_name".toList), PyVal.str name),
     (("training_job_arn".toList), PyVal.other),
     (("status".toList), PyVal.str ("started".toList))]
  | TrainResult.failed =>
    [(("status".toList), PyVal.str ("error".toList)),
     (("error".toList), PyVal.other)]

/-- The filter of `handle_s3_trigger`: a CSV file in the raw data folder. -/
def matchesRaw (k : Str) : Bool :=
  startsWithL k ("raw/".toList) && endsWithL k (".csv".toList)

/-- The loop body of `handle_s3_trigger` over the event records: matching
keys are processed and may launch a training job; all other records are
skipped. -/
def s3Loop (ok : Bool) (ts : Str) : Store → List Record → Store × List Eff × List ProcItem
  | st, [] => (st, [], [])
  | st, r :: rs =>
    if matchesRaw r.key then
      let p := process_data_file st r.bucket r.key
      let trig := should_trigger_training p.1 r.bucket
      let tr :=
        if trig then
          let t := start_training_job ok ts
          (t.1, [ProcItem.trainRes t.2])
        else ([], [])
      let rest := s3Loop ok ts p.1 rs
      (rest.1,
       p.2.1 ++ (Eff.listReq r.bucket ("processed/".toList) :: tr.1) ++ rest.2.1,
       ProcItem.fileRes p.2.2 :: tr.2 ++ rest.2.2)
    else
      s3Loop ok ts st rs

/-- `handle_s3_trigger(event)`.  The processed-files list is returned
alongside the response (in the source it is nested inside the response's
`data`, which the embedding abstracts to `PyVal.other`). -/
def handle_s3_trigger (ext : Ext) (st : Store) (rs : List Record) :
    Store × List Eff × List ProcItem × Resp :=
  let l := s3Loop ext.sagemakerOk ext.ts st rs
  (l.1, l.2.1, l.2.2,
   create_response 200 ("Processed files".toList) (some PyVal.other) ext.now)

/-- The per-key loop of `process_all_data` (results of the individual
files are ignored there; only the count enters the message). -/
def processFold (b : Str) : Store → List Str → Store × List Eff
  | st, [] => (st, [])
  | st, k :: ks =>
    let p := process_data_file st b k
    let rest := processFold b p.1 ks
    (rest.1, p.2.1 ++ rest.2)

/-- `process_all_data()`: list `raw/`, process every `.csv` key. -/
def process_all_data (dataB now : Str) (st : Store) : Store × List Eff × Resp :=
  let ks := (listKeys st dataB ("raw/".toList)).filter
    (fun k => endsWithL k (".csv".toList))
  let p := processFold dataB st ks
  (p.1, Eff.listReq dataB ("raw/".toList) :: p.2,
   create_response 200 ("Processed data files".toList) none now)

/-- Sort relation of `cleanup_old_models`:
`sorted(..., key=lambda x: x['LastModified'], reverse=True)`. -/
def moreRecent (a b : Entry) : Prop := b.lm ≤ a.lm

instance : DecidableRel moreRecent := fun a b => Nat.decLe b.lm a.lm

instance : IsTotal Entry moreRecent := ⟨fun a b => Nat.le_total b.lm a.lm⟩

instance : IsTrans Entry moreRecent :=
  ⟨fun _ _ _ h1 h2 => Nat.le_trans h2 h1⟩

/-- `cleanup_old_models()`: list `models/`, keep the 5 most recent,
delete the rest. -/
def cleanup_old_models (artB now : Str) (st : Store) : Store × List Eff × Resp :=
  let objs := listEntries st artB ("models/".toList)
  let sorted := List.insertionSort moreRecent objs
  let dels := sorted.drop 5
  (removeAll st artB dels,
   Eff.listReq artB ("models/".toList) ::
     dels.map (fun o => Eff.deleteObj artB o.key),
   create_response 200 ("Cleaned up old models".toList) none now)

/-- The file key an item of `processed_files` refers to (`none` for a
training-job result, which carries no `file` entry). -/
def itemFile : ProcItem → Option Str
  | ProcItem.fileRes (FileResult.processed f _) => some f
  | ProcItem.fileRes (FileResult.error f) => some f
  | ProcItem.trainRes _ => none

/-- Does a trace contain a `create_training_job` call? -/
def hasCreateJob (tr : List Eff) : Bool :=
  tr.any (fun e =>
    match e with
    | Eff.createTrainingJob _ => true
    | _ => false)

/-- The `delete_object` calls of a trace. -/
def deleteEffs (tr : List Eff) : List Eff :=
  tr.filter (fun e =>
    match e with
    | Eff.deleteObj _ _ => true
    | _ => false)

/-- The keys deleted by a trace. -/
def deleteKeys (tr : List Eff) : List Str :=
  tr.filterMap (fun e =>
    match e with
    | Eff.deleteObj _ k => some k
    | _ => none)

/-- `handle_direct_invocation(event)`. -/
def handle_direct_invocation (dataB artB : Str) (ext : Ext) (st : Store)
    (ev : Event) : Store × List Eff × Resp :=
  match ev.action with
  | some a =>
    if a == ("train_model".toList) then
      let t := start_training_job ext.sagemakerOk ext.ts
      (st, t.1, trainResultResp t.2)
    else if a == ("process_data".toList) then
      process_all_data dataB ext.now st
    else if a == ("cleanup_old_models".toList) then
      cleanup_old_models artB ext.now st
    else
      (st, [], create_response 400 ("Unknown action".toList) none ext.now)
  | none =>
    (st, [], create_response 400 ("Unknown action".toList) none ext.now)

/-- `handle_scheduled_trigger(event)`: `action = event.get('action',
'train_model')`. -/
def handle_scheduled_trigger (ext : Ext) (st : Store) (ev : Event) :
    Store × List Eff × Resp :=
  let a := ev.action.getD ("train_model".toList)
  if a == ("train_model".toList) then
    let t := start_training_job ext.sagemakerOk ext.ts
    (st, t.1, trainResultResp t.2)
  else
    (st, [], create_response 400 ("Unknown scheduled action".toList) none ext.now)

/-- The top-level `lambda_handler(event, context)` of
`scripts/lambda_handler.py`: dispatch on `Records` / `action` /
`trigger_type`, else a 400 response. -/
def lambda_handler (dataB artB : Str) (ext : Ext) (st : Store) (ev : Event) :
    Store × List Eff × Resp :=
  match ev.records with
  | some rs =>
    let h := handle_s3_trigger ext st rs
    (h.1, h.2.1, h.2.2.2)
  | none =>
    match ev.action with
    | some _ => handle_direct_invocation dataB artB ext st ev
    | none =>
      match ev.trigger_type with
      | some _ => handle_scheduled_trigger ext st ev
      | none =>
        (st, [], create_response 400 ("Unknown event type".toList) none ext.now)

end ML

namespace BI

/-- One cell of a pandas DataFrame read from CSV: a number (ℚ in place of
float), a text value, or a missing value (NaN). -/
inductive Cell where
  | num (q : ℚ)
  | txt (s : Str)
  | missing
deriving DecidableEq

/-- A pandas DataFrame: column names and rows of cells. -/
structure Frame where
  cols : List Str
  rows : List (List Cell)
deriving DecidableEq

/-- The loaded (external) predictor.  `predictRow` gives the prediction
values for one sample; `arity` is the second dimension of the prediction
array (`1` for the 1-D case).  The `predict_proba` / binary-collapse
branching of the source is internal to this opaque external object. -/
structure Model where
  arity : Nat
  predictRow : List Cell → List Cell

/-- Observable external calls made by `scripts/batch_inference.py`. -/
inductive Eff where
  | getObj (bucket key : Str)
  | putObj (bucket key : Str) (body : Frame)
  | putMetric (name : Str) (value : Nat)
deriving DecidableEq

/-- The event of the batch-inference handler: optional
`input_data_key`, `model_key`, `output_key` entries. -/
structure Event where
  input_data_key : Option Str
  model_key : Option Str
  output_key : Option Str

/-- Outcomes of the external calls: the loaded model (`none` when
`load_model_from_s3` returns `None`), the loaded input frame (`none` when
`load_data_from_s3` returns `None`), whether the library prediction call
raises, whether the save to S3 raises, and the two timestamps. -/
structure Ext where
  modelRes : Option Model
  dataRes : Option Frame
  predictOk : Bool
  putOk : Bool
  ts : Str
  now : Str

/-- `create_response(status_code, message, data=None)` of
`batch_inference.py` (same shape as in `lambda_handler.py`). -/
def create_response (sc : Int) (msg : Str) (data : Option PyVal) (now : Str) : Resp :=
  [(("statusCode".toList), PyVal.num sc),
   (("message".toList), PyVal.str msg),
   (("timestamp".toList), PyVal.str now)] ++
  (match data with
   | some d => [(("data".toList), d)]
   | none => [])

/-- The feature-column filter of `perform_batch_predictions`:
`col.lower() not in ['id', 'target', 'label']`. -/
def feature_columns (f : Frame) : List Str :=
  f.cols.filter (fun c =>
    !([("id".toList), ("target".toList), ("label".toList)].contains (lowerL c)))

/-- The cell of a row under a named column. -/
def cellOf (cols : List Str) (row : List Cell) (c : Str) : Cell :=
  (((cols.zip row).find? (fun p => p.1 == c)).map (fun p => p.2)).getD Cell.missing

/-- `input_data[feature_columns]`: column projection. -/
def project (f : Frame) (cs : List Str) : Frame :=
  ⟨cs, f.rows.map (fun r => cs.map (fun c => cellOf f.cols r c))⟩

/-- The numeric value of a cell, when it has one. -/
def cellNum : Cell → Option ℚ
  | Cell.num q => some q
  | _ => none

/-- The cells of column index `j`. -/
def colVals (f : Frame) (j : Nat) : List Cell :=
  f.rows.map (fun r => r.getD j Cell.missing)

/-- The mean of the non-missing numeric values of column `j`
(`none` when the column has no numeric value, in which case `fillna`
leaves the cell missing). -/
def colMean (f : Frame) (j : Nat) : Option ℚ :=
  let ns := (colVals f j).filterMap cellNum
  if ns.isEmpty then none else some (ns.sum / (ns.length : ℚ))

/-- Filling one cell with the column mean when it is missing. -/
def fillCell (m : Option ℚ) : Cell → Cell
  | Cell.missing =>
    (match m with
     | some q => Cell.num q
     | none => Cell.missing)
  | c => c

/-- `X.fillna(X.mean())`. -/
def fillna (f : Frame) : Frame :=
  ⟨f.cols,
   f.rows.map (fun r =>
     (List.range f.cols.length).map (fun j =>
       fillCell (colMean f j) (r.getD j Cell.missing)))⟩

/-- `perform_batch_predictions(model, input_data)`: select the feature
columns, fill missing values with the column means, and apply the loaded
model row-wise. -/
def perform_batch_predictions (m : Model) (input_data : Frame) : List (List Cell) :=
  let X := project input_data (feature_columns input_data)
  let Xf := fillna X
  Xf.rows.map m.predictRow

/-- The prediction column names added by `save_predictions_to_s3`:
`prediction` for 1-D predictions, `prediction_class_i` otherwise. -/
def predColNames (arity : Nat) : List Str :=
  if arity == 1 then [("prediction".toList)]
  else (List.range arity).map
    (fun i => ("prediction_class_".toList) ++ (Nat.repr i).toList)

/-- The output DataFrame of `save_predictions_to_s3`: a copy of the
input rows, each extended with its prediction value(s), the prediction
timestamp, and the `model_version` marker. -/
def outputFrame (arity : Nat) (now : Str) (preds : List (List Cell))
    (input_data : Frame) : Frame :=
  ⟨input_data.cols ++ predColNames arity ++
     [("prediction_timestamp".toList), ("model_version".toList)],
   (input_data.rows.zip preds).map
     (fun rp => rp.1 ++ rp.2 ++ [Cell.txt now, Cell.txt ("latest".toList)])⟩

/-- `save_predictions_to_s3(predictions, input_data, output_key)`: build
the output DataFrame and upload it with one `put_object` call. -/
def save_predictions_to_s3 (artB : Str) (arity : Nat) (now : Str)
    (preds : List (List Cell)) (input_data : Frame) (output_key : Str) : List Eff :=
  [Eff.putObj artB output_key (outputFrame arity now preds input_data)]

/-- The top-level `lambda_handler(event, context)` of
`scripts/batch_inference.py`: resolve the three keys (with their
defaults), load model and data, predict, save, emit metrics; missing
model or data yield 404, a raised exception yields 500 plus an error
metric. -/
def lambda_handler (dataB artB : Str) (ext : Ext) (ev : Event) :
    List Eff × Resp :=
  let mk := ev.model_key.getD ("models/latest_model.joblib".toList)
  let ik := ev.input_data_key.getD ("processed/batch_input.csv".toList)
  let ok := ev.output_key.getD
    (("predictions/batch_predictions_".toList) ++ ext.ts ++ (".csv".toList))
  match ext.modelRes with
  | none =>
    ([Eff.getObj artB mk],
     create_response 404 ("Model not found".toList) none ext.now)
  | some m =>
    match ext.dataRes with
    | none =>
      ([Eff.getObj artB mk, Eff.getObj dataB ik],
       create_response 404 ("Input data not found".toList) none ext.now)
    | some f =>
      if ext.predictOk then
        let preds := perform_batch_predictions m f
        if ext.putOk then
          ([Eff.getObj artB mk, Eff.getObj dataB ik] ++
             save_predictions_to_s3 artB m.arity ext.now preds f ok ++
             [Eff.putMetric ("BatchInferenceCompleted".toList) 1,
              Eff.putMetric ("PredictionCount".toList) preds.length],
           create_response 200 ("Batch inference completed successfully".toList)
             (some PyVal.other) ext.now)
        else
          ([Eff.getObj artB mk, Eff.getObj dataB ik,
            Eff.putMetric ("BatchInferenceErrors".toList) 1],
           create_response 500 ("Batch inference error".toList) none ext.now)
      else
        ([Eff.getObj artB mk, Eff.getObj dataB ik,
          Eff.putMetric ("BatchInferenceErrors".toList) 1],
         create_response 500 ("Batch inference error".toList) none ext.now)

/-- The `(bucket, key)` targets of the `get_object` calls of a trace. -/
def getTargets (tr : List Eff) : List (Str × Str) :=
  tr.filterMap (fun e =>
    match e with
    | Eff.getObj b k => some (b, k)
    | _ => none)

/-- The bodies written by the `put_object` calls of a trace. -/
def putBodies (tr : List Eff) : List Frame :=
  tr.filterMap (fun e =>
    match e with
    | Eff.putObj _ _ body => some body
    | _ => none)

end BI

namespace TR

/-- The four artifacts serialized by `save_model_artifacts` (opaque
blobs: the trained model, its scaler, the feature names, the metrics). -/
inductive Artifact where
  | model
  | scaler
  | feature_names
  | metricsData
deriving DecidableEq

/-- Observable uploads made by `scripts/train_model.py`. -/
inductive Eff where
  | upload (bucket key : Str) (a : Artifact)
deriving DecidableEq

/-- `save_model_artifacts(model, scaler, feature_names, metrics)`: the
eight `upload_file` calls, in source order — timestamped copies first,
then the `latest` copies. -/
def save_model_artifacts (artB ts : Str) : List Eff :=
  [Eff.upload artB (("models/model_".toList) ++ ts ++ (".joblib".toList)) Artifact.model,
   Eff.upload artB (("models/scaler_".toList) ++ ts ++ (".joblib".toList)) Artifact.scaler,
   Eff.upload artB (("models/feature_names_".toList) ++ ts ++ (".json".toList)) Artifact.feature_names,
   Eff.upload artB (("metrics/metrics_".toList) ++ ts ++ (".json".toList)) Artifact.metricsData,
   Eff.upload artB ("models/latest_model.joblib".toList) Artifact.model,
   Eff.upload artB ("models/latest_scaler.joblib".toList) Artifact.scaler,
   Eff.upload artB ("models/latest_feature_names.json".toList) Artifact.feature_names,
   Eff.upload artB ("metrics/latest_metrics.json".toList) Artifact.metricsData]

/-- The storage-visible behaviour of a successful `main()` run: data
loading, training and evaluation touch no object storage; the artifact
uploads are exactly those of `save_model_artifacts`. -/
def main (artB ts : Str) : List Eff := save_model_artifacts artB ts

end TR

/-! ### Spec-side observation helpers and concrete data -/

/-- Does a response carry the three standard fields of `create_response`? -/
def respHasStd (r : Resp) : Bool :=
  hasKey r ("statusCode".toList) && hasKey r ("message".toList)
    && hasKey r ("timestamp".toList)

/-- Does the dispatcher route this event into `start_training_job`
(whose raw result dict is returned as the response)?  This happens for a
direct invocation with action `train_model` and for every scheduled
trigger (there the action defaults to `train_model`, the event having no
`action` key at that dispatch point). -/
def isTrainDispatch (ev : ML.Event) : Bool :=
  ev.records.isNone && (ev.action == some ("train_model".toList)
    || (ev.action.isNone && ev.trigger_type.isSome))

/-- A store holding one raw CSV object. -/
def rawStore : ML.Store :=
  [⟨("data-bucket".toList), ("raw/data.csv".toList), ("a,b\x0a1,2".toList), 0⟩]

/-- A store holding six model artifacts with distinct timestamps. -/
def modelStore : ML.Store :=
  [⟨("art-bucket".toList), ("models/m0".toList), [], 10⟩,
   ⟨("art-bucket".toList), ("models/m1".toList), [], 11⟩,
   ⟨("art-bucket".toList), ("models/m2".toList), [], 12⟩,
   ⟨("art-bucket".toList), ("models/m3".toList), [], 13⟩,
   ⟨("art-bucket".toList), ("models/m4".toList), [], 14⟩,
   ⟨("art-bucket".toList), ("models/m5".toList), [], 15⟩]

/-- A constant single-output predictor. -/
def constModel : BI.Model := ⟨1, fun _ => [BI.Cell.num 7]⟩

/-- A two-row input frame with an `id` column and one feature column. -/
def inputFrame : BI.Frame :=
  ⟨[("id".toList), ("feature_1".toList)],
   [[BI.Cell.txt ("p".toList), BI.Cell.num 2],
    [BI.Cell.txt ("q".toList), BI.Cell.num 3]]⟩

/-- Batch-inference externals where every external call succeeds. -/
def okExt : BI.Ext :=
  ⟨some constModel, some inputFrame, true, true, ("20250101".toList), ("now".toList)⟩

/-- The event of a direct `cleanup_old_models` invocation. -/
def cleanupEvent : ML.Event := ⟨none, some ("cleanup_old_models".toList), none⟩

/-- Lambda-handler externals where the SageMaker call succeeds. -/
def mlExtW : ML.Ext := ⟨true, [], []⟩

/-! ### Helper lemmas about the embedded string operations -/

lemma isPrefL_append (p t : Str) : isPrefL p (p ++ t) = true := by
  induction p with
  | nil => rfl
  | cons a ps ih => simp [isPrefL, ih]

lemma startsWithL_exists : ∀ (p s : Str), startsWithL s p = true → ∃ t, s = p ++ t
  | [], s, _ => ⟨s, rfl⟩
  | a :: _, [], h => by simp [startsWithL, isPrefL] at h
  | a :: ps, b :: ss, h => by
    simp only [startsWithL, isPrefL, Bool.and_eq_true, beq_iff_eq] at h
    obtain ⟨t, ht⟩ := startsWithL_exists ps ss h.2
    exact ⟨t, by simp [h.1, ht]⟩

lemma replaceFuel_congr (old new : Str) :
    ∀ (f g : Nat) (s : Str), s.length ≤ f → s.length ≤ g →
      replaceFuel old new f s = replaceFuel old new g s := by
  intro f
  induction f with
  | zero =>
    intro g s hf _
    have hs : s = [] := List.eq_nil_of_length_eq_zero (Nat.le_zero.mp hf)
    subst hs
    cases g <;> rfl
  | succ f ih =>
    intro g s hf hg
    cases s with
    | nil => cases g <;> rfl
    | cons c rest =>
      cases g with
      | zero => exact absurd hg (by simp)
      | succ g' =>
        simp only [replaceFuel]
        by_cases hc : (isPrefL old (c :: rest) && !old.isEmpty) = true
        · rw [if_pos hc, if_pos hc]
          have hol : 0 < old.length := by
            cases old with
            | nil => simp at hc
            | cons _ _ => exact Nat.succ_pos _
          have hlen : ((c :: rest).drop old.length).length ≤ f ∧
              ((c :: rest).drop old.length).length ≤ g' := by
            simp only [List.length_drop, List.length_cons]
            simp only [List.length_cons] at hf hg
            omega
          rw [ih _ _ hlen.1 hlen.2]
        · rw [if_neg hc, if_neg hc]
          have hlen : rest.length ≤ f ∧ rest.length ≤ g' := by
            simp only [List.length_cons] at hf hg
            omega
          rw [ih _ _ hlen.1 hlen.2]

lemma replaceL_append (old new t : Str) (h : old ≠ []) :
    replaceL old new (old ++ t) = new ++ replaceL old new t := by
  cases old with
  | nil => exact absurd rfl h
  | cons o os =>
    show replaceL (o :: os) new ((o :: os) ++ t) = _
    unfold replaceL
    simp only [List.cons_append, List.length_cons, replaceFuel]
    have hpre : isPrefL (o :: os) (o :: (os ++ t)) = true := by
      simpa [List.cons_append] using isPrefL_append (o :: os) t
    rw [if_pos (by simp [hpre, List.isEmpty])]
    have hdrop : (o :: (os ++ t)).drop (o :: os).length = t := by
      simp [List.cons_append]
    simp only [List.length_cons] at hdrop
    simp only [List.append_eq]
    rw [hdrop]
    show new ++ replaceFuel (o :: os) new (os ++ t).length t
        = new ++ replaceL (o :: os) new t
    unfold replaceL
    congr 1
    exact replaceFuel_congr _ _ _ _ _ (by rw [List.length_append]; omega)
      (Nat.le_refl _)

lemma getObject_putObject (st : ML.Store) (b k c k' : Str) :
    ML.getObject (ML.putObject st b k c) b k'
      = if (k == k') = true then some c else ML.getObject st b k' := by
  unfold ML.getObject ML.putObject
  by_cases h : (k == k') = true
  · simp [List.find?, h]
  · simp [List.find?, h]

lemma replace_raw_to_processed {k : Str}
    (h : startsWithL k ("raw/".toList) = true) :
    startsWithL (replaceL ("raw/".toList) ("processed/".toList) k)
      ("processed/".toList) = true := by
  obtain ⟨t, rfl⟩ := startsWithL_exists _ _ h
  rw [replaceL_append _ _ _ (by decide)]
  exact isPrefL_append _ _

/-! ### Claim theorems -/

/-- Claim C5: for every ingested data file whose content is non-empty,
`process_data_file` performs exactly the sequence read the object, write
the transformed copy (the key with `raw/` replaced by `processed/`),
then emit one `DataFileProcessed` counter metric of value 1 — in that
order. -/
theorem process_data_file_effect_sequence
    (st : ML.Store) (b k c : Str)
    (hget : ML.getObject st b k = some c) (hne : c ≠ []) :
    (ML.process_data_file st b k).2.1
      = [ML.Eff.getObj b k,
         ML.Eff.copyObj b k (replaceL ("raw/".toList) ("processed/".toList) k),
         ML.Eff.putMetric ("DataFileProcessed".toList) 1] := by
  have hemp : c.isEmpty = false := by
    cases c with
    | nil => exact absurd rfl hne
    | cons _ _ => rfl
  unfold ML.process_data_file
  rw [hget]
  simp [hemp]

theorem process_data_file_effect_sequence_witness :
    (ML.process_data_file rawStore ("data-bucket".toList) ("raw/data.csv".toList)).2.1
      = [ML.Eff.getObj ("data-bucket".toList) ("raw/data.csv".toList),
         ML.Eff.copyObj ("data-bucket".toList) ("raw/data.csv".toList)
           (replaceL ("raw/".toList) ("processed/".toList) ("raw/data.csv".toList)),
         ML.Eff.putMetric ("DataFileProcessed".toList) 1] :=
  process_data_file_effect_sequence rawStore _ _ ("a,b\x0a1,2".toList)
    (by decide) (by decide)

/-- Claim C7: every successful training run persists both the serialized
model and its feature scaler as opaque blobs, each under a timestamped
name and as a `latest` copy. -/
theorem training_persists_model_and_scaler (artB ts : Str) :
    TR.Eff.upload artB (("models/model_".toList) ++ ts ++ (".joblib".toList))
        TR.Artifact.model ∈ TR.main artB ts
    ∧ TR.Eff.upload artB (("models/scaler_".toList) ++ ts ++ (".joblib".toList))
        TR.Artifact.scaler ∈ TR.main artB ts
    ∧ TR.Eff.upload artB ("models/latest_model.joblib".toList)
        TR.Artifact.model ∈ TR.main artB ts
    ∧ TR.Eff.upload artB ("models/latest_scaler.joblib".toList)
        TR.Artifact.scaler ∈ TR.main artB ts := by
  refine ⟨?_, ?_, ?_, ?_⟩ <;> simp [TR.main, TR.save_model_artifacts]

/-- Claim C10: processing a data file copies rather than moves it — after
successful processing of a non-empty `raw/` object, the original object
is still readable at its raw key and an identical copy is readable at
the `processed/` key (which does carry the `processed/` prefix); an
empty object leaves the store unchanged, emits neither a copy nor a
metric, and is reported as an error. -/
theorem process_data_file_copies_not_moves
    (st : ML.Store) (b k c : Str)
    (hget : ML.getObject st b k = some c)
    (hraw : startsWithL k ("raw/".toList) = true) :
    (c ≠ [] →
      ML.getObject (ML.process_data_file st b k).1 b k = some c
      ∧ ML.getObject (ML.process_data_file st b k).1 b
          (replaceL ("raw/".toList) ("processed/".toList) k) = some c
      ∧ startsWithL (replaceL ("raw/".toList) ("processed/".toList) k)
          ("processed/".toList) = true
      ∧ (ML.process_data_file st b k).2.2
          = ML.FileResult.processed k
              (replaceL ("raw/".toList) ("processed/".toList) k))
    ∧ (c = [] →
      (ML.process_data_file st b k).1 = st
      ∧ ((ML.process_data_file st b k).2.1.all (fun e =>
           match e with
           | ML.Eff.copyObj _ _ _ => false
           | ML.Eff.putMetric _ _ => false
           | _ => true)) = true
      ∧ (ML.process_data_file st b k).2.2 = ML.FileResult.error k) := by
  constructor
  · intro hne
    have hemp : c.isEmpty = false := by
      cases c with
      | nil => exact absurd rfl hne
      | cons _ _ => rfl
    unfold ML.process_data_file
    rw [hget]
    dsimp only
    rw [if_neg (by simp [hemp])]
    refine ⟨?_, ?_, replace_raw_to_processed hraw, rfl⟩
    · show ML.getObject
        (ML.putObject st b (replaceL ("raw/".toList) ("processed/".toList) k) c)
        b k = some c
      rw [getObject_putObject]
      by_cases hb : ((replaceL ("raw/".toList) ("processed/".toList) k == k)) = true
      · rw [if_pos hb]
      · rw [if_neg hb]
        exact hget
    · show ML.getObject
        (ML.putObject st b (replaceL ("raw/".toList) ("processed/".toList) k) c)
        b (replaceL ("raw/".toList) ("processed/".toList) k) = some c
      rw [getObject_putObject]
      rw [if_pos (by simp)]
  · intro hc
    subst hc
    unfold ML.process_data_file
    rw [hget]
    exact ⟨rfl, rfl, rfl⟩

theorem process_data_file_copies_not_moves_witness :
    ML.getObject
        (ML.process_data_file rawStore ("data-bucket".toList)
          ("raw/data.csv".toList)).1
        ("data-bucket".toList) ("raw/data.csv".toList)
      = some ("a,b\x0a1,2".toList)
    ∧ ML.getObject
        (ML.process_data_file rawStore ("data-bucket".toList)
          ("raw/data.csv".toList)).1
        ("data-bucket".toList)
        (replaceL ("raw/".toList) ("processed/".toList) ("raw/data.csv".toList))
      = some ("a,b\x0a1,2".toList)
    ∧ startsWithL
        (replaceL ("raw/".toList) ("processed/".toList) ("raw/data.csv".toList))
        ("processed/".toList) = true
    ∧ (ML.process_data_file rawStore ("data-bucket".toList)
        ("raw/data.csv".toList)).2.2
      = ML.FileResult.processed ("raw/data.csv".toList)
          (replaceL ("raw/".toList) ("processed/".toList) ("raw/data.csv".toList)) :=
  (process_data_file_copies_not_moves rawStore _ _ ("a,b\x0a1,2".toList)
    (by decide) (by decide)).1 (by decide)

/-! ### Lemmas about the S3-trigger loop -/

lemma itemFile_process (st : ML.Store) (b k : Str) :
    ML.itemFile (ML.ProcItem.fileRes (ML.process_data_file st b k).2.2) = some k := by
  unfold ML.process_data_file
  cases hget : ML.getObject st b k with
  | none => rfl
  | some c =>
    dsimp only
    by_cases hc : c.isEmpty = true
    · rw [if_pos hc]
      rfl
    · rw [if_neg hc]
      rfl

lemma s3Loop_items_iff (ok : Bool) (ts : Str) :
    ∀ (rs : List ML.Record) (st : ML.Store) (k : Str),
      ((ML.s3Loop ok ts st rs).2.2.any (fun it => ML.itemFile it == some k)) = true
        ↔ ∃ r ∈ rs, r.key = k ∧ ML.matchesRaw k = true := by
  intro rs
  induction rs with
  | nil =>
    intro st k
    simp [ML.s3Loop]
  | cons r rs ih =>
    intro st k
    by_cases hm : ML.matchesRaw r.key = true
    · rcases ht : ML.should_trigger_training (ML.process_data_file st r.bucket r.key).1 r.bucket with _ | _
      all_goals
        simp only [ML.s3Loop, hm, if_true, ht, Bool.false_eq_true, if_false,
          List.nil_append, List.cons_append, List.any_cons, List.any_append,
          Bool.or_eq_true, itemFile_process, List.any_nil, Bool.or_false]
      · -- training not triggered
        constructor
        · rintro (h1 | h2)
          · have hk : r.key = k := by simpa using h1
            exact ⟨r, List.mem_cons_self r rs, hk, hk ▸ hm⟩
          · obtain ⟨r', hr', hk, hmk⟩ := (ih _ _).mp h2
            exact ⟨r', List.mem_cons_of_mem r hr', hk, hmk⟩
        · rintro ⟨r', hr', hk, hmk⟩
          rcases List.mem_cons.mp hr' with heq | hmem
          · subst heq
            exact Or.inl (by simp [hk])
          · exact Or.inr ((ih _ _).mpr ⟨r', hmem, hk, hmk⟩)
      · -- training triggered: the training item carries no file entry
        constructor
        · rintro (h1 | h2 | h3)
          · have hk : r.key = k := by simpa using h1
            exact ⟨r, List.mem_cons_self r rs, hk, hk ▸ hm⟩
          · simp [ML.itemFile] at h2
          · obtain ⟨r', hr', hk, hmk⟩ := (ih _ _).mp h3
            exact ⟨r', List.mem_cons_of_mem r hr', hk, hmk⟩
        · rintro ⟨r', hr', hk, hmk⟩
          rcases List.mem_cons.mp hr' with heq | hmem
          · subst heq
            exact Or.inl (by simp [hk])
          · exact Or.inr (Or.inr ((ih _ _).mpr ⟨r', hmem, hk, hmk⟩))
    · -- record skipped
      have hm' : ML.matchesRaw r.key = false := by
        cases hq : ML.matchesRaw r.key with
        | true => exact absurd hq hm
        | false => rfl
      simp only [ML.s3Loop, hm', Bool.false_eq_true, if_false]
      rw [ih]
      constructor
      · rintro ⟨r', hr', hk, hmk⟩
        exact ⟨r', List.mem_cons_of_mem r hr', hk, hmk⟩
      · rintro ⟨r', hr', hk, hmk⟩
        rcases List.mem_cons.mp hr' with heq | hmem
        · subst heq
          exact absurd (hk ▸ hmk) hm
        · exact ⟨r', hmem, hk, hmk⟩

lemma s3Loop_trace_nil (ok : Bool) (ts : Str) :
    ∀ (rs : List ML.Record) (st : ML.Store),
      (∀ r ∈ rs, ML.matchesRaw r.key = false) →
      (ML.s3Loop ok ts st rs).2.1 = [] := by
  intro rs
  induction rs with
  | nil =>
    intro st _
    rfl
  | cons r rs ih =>
    intro st h
    have hr := h r (List.mem_cons_self r rs)
    simp only [ML.s3Loop, hr, Bool.false_eq_true, if_false]
    exact ih st (fun r' hr' => h r' (List.mem_cons_of_mem r hr'))

/-- Claim C3: a storage-event record is processed (appears with its key
in the `processed_files` result) if and only if its key starts with
`raw/` and ends with `.csv`; if no record of the event matches, the
handler performs no external call at all — in particular no storage
write and no metric. -/
theorem s3_trigger_processes_iff_raw_csv
    (ok : Bool) (ts : Str) (st : ML.Store) (rs : List ML.Record) :
    (∀ k : Str,
      ((ML.s3Loop ok ts st rs).2.2.any (fun it => ML.itemFile it == some k)) = true
        ↔ ∃ r ∈ rs, r.key = k ∧ ML.matchesRaw k = true)
    ∧ ((∀ r ∈ rs, ML.matchesRaw r.key = false) →
        (ML.s3Loop ok ts st rs).2.1 = []) :=
  ⟨fun k => s3Loop_items_iff ok ts rs st k, s3Loop_trace_nil ok ts rs st⟩

theorem s3_trigger_processes_iff_raw_csv_witness :
    (ML.s3Loop true [] rawStore
      [⟨("data-bucket".toList), ("raw/readme.txt".toList)⟩]).2.1 = [] :=
  (s3_trigger_processes_iff_raw_csv true [] rawStore
    [⟨("data-bucket".toList), ("raw/readme.txt".toList)⟩]).2 (by decide)

/-! ### Lemmas for the training-trigger claim -/

lemma hasCreateJob_process (st : ML.Store) (b k : Str) :
    ML.hasCreateJob (ML.process_data_file st b k).2.1 = false := by
  unfold ML.process_data_file
  cases hget : ML.getObject st b k with
  | none => rfl
  | some c =>
    dsimp only
    by_cases hc : c.isEmpty = true
    · rw [if_pos hc]
      rfl
    · rw [if_neg hc]
      rfl

lemma hasCreateJob_append (a b : List ML.Eff) :
    ML.hasCreateJob (a ++ b) = (ML.hasCreateJob a || ML.hasCreateJob b) := by
  simp [ML.hasCreateJob]

lemma hasCreateJob_cons_listReq (b pre : Str) (tr : List ML.Eff) :
    ML.hasCreateJob (ML.Eff.listReq b pre :: tr) = ML.hasCreateJob tr := by
  simp [ML.hasCreateJob]

lemma hasCreateJob_start (ok : Bool) (ts : Str) :
    ML.hasCreateJob (ML.start_training_job ok ts).1 = true := by
  cases ok <;> rfl

lemma s3_single_trigger_iff (ok : Bool) (ts : Str) (st : ML.Store) (b k : Str)
    (hm : ML.matchesRaw k = true) :
    ML.hasCreateJob (ML.s3Loop ok ts st [⟨b, k⟩]).2.1 = true
      ↔ ML.should_trigger_training (ML.process_data_file st b k).1 b = true := by
  have hsplit : (ML.s3Loop ok ts st [⟨b, k⟩]).2.1
      = (ML.process_data_file st b k).2.1
        ++ (ML.Eff.listReq b ("processed/".toList)
            :: (if ML.should_trigger_training (ML.process_data_file st b k).1 b
                then (ML.start_training_job ok ts).1 else [])) := by
    simp only [ML.s3Loop, hm, if_true]
    by_cases ht :
        ML.should_trigger_training (ML.process_data_file st b k).1 b = true
    · simp [ht]
    · simp [ht]
  rw [hsplit, hasCreateJob_append, hasCreateJob_cons_listReq,
    hasCreateJob_process, Bool.false_or]
  by_cases ht :
      ML.should_trigger_training (ML.process_data_file st b k).1 b = true
  · simp [ht, hasCreateJob_start]
  · simp [ht, ML.hasCreateJob]

lemma should_trigger_iff (st : ML.Store) (b : Str) :
    ML.should_trigger_training st b = true
      ↔ ∃ e ∈ st, e.bucket = b
          ∧ startsWithL e.key ("processed/".toList) = true
          ∧ endsWithL e.key (".csv".toList) = true := by
  unfold ML.should_trigger_training ML.listKeys ML.listEntries
  rw [List.any_eq_true]
  constructor
  · rintro ⟨k, hk, hcsv⟩
    rw [List.mem_map] at hk
    obtain ⟨e, he, rfl⟩ := hk
    rw [List.mem_filter] at he
    obtain ⟨hest, hcond⟩ := he
    rw [Bool.and_eq_true, beq_iff_eq] at hcond
    exact ⟨e, hest, hcond.1, hcond.2, hcsv⟩
  · rintro ⟨e, he, hb, hpre, hcsv⟩
    refine ⟨e.key, ?_, hcsv⟩
    rw [List.mem_map]
    refine ⟨e, ?_, rfl⟩
    rw [List.mem_filter]
    refine ⟨he, ?_⟩
    rw [Bool.and_eq_true, beq_iff_eq]
    exact ⟨hb, hpre⟩

/-- Claim C4: after processing a raw CSV record, a training job is
launched if and only if the processed store then contains at least one
`.csv` key under the `processed/` prefix — the gate
`should_trigger_training` holds exactly when such an object exists. -/
theorem training_trigger_iff_processed_csv :
    (∀ (ok : Bool) (ts : Str) (st : ML.Store) (b k : Str),
      ML.matchesRaw k = true →
      (ML.hasCreateJob (ML.s3Loop ok ts st [⟨b, k⟩]).2.1 = true
        ↔ ML.should_trigger_training (ML.process_data_file st b k).1 b = true))
    ∧ (∀ (st : ML.Store) (b : Str),
      ML.should_trigger_training st b = true
        ↔ ∃ e ∈ st, e.bucket = b
            ∧ startsWithL e.key ("processed/".toList) = true
            ∧ endsWithL e.key (".csv".toList) = true) :=
  ⟨fun ok ts st b k hm => s3_single_trigger_iff ok ts st b k hm,
   fun st b => should_trigger_iff st b⟩

theorem training_trigger_iff_processed_csv_witness :
    ML.hasCreateJob (ML.s3Loop true [] rawStore
        [⟨("data-bucket".toList), ("raw/data.csv".toList)⟩]).2.1 = true := by
  have h := (training_trigger_iff_processed_csv.1 true [] rawStore
    ("data-bucket".toList) ("raw/data.csv".toList) (by decide))
  exact h.mpr (by decide)

/-! ### Lemmas and claims about `cleanup_old_models` -/

lemma cleanup_trace_eq (artB now : Str) (st : ML.Store) :
    (ML.cleanup_old_models artB now st).2.1
      = ML.Eff.listReq artB ("models/".toList)
        :: ((List.insertionSort ML.moreRecent
              (ML.listEntries st artB ("models/".toList))).drop 5).map
            (fun o => ML.Eff.deleteObj artB o.key) := rfl

lemma deleteKeys_deleteMap (artB : Str) (l : List ML.Entry) :
    ML.deleteKeys (l.map (fun o => ML.Eff.deleteObj artB o.key))
      = l.map (fun o => o.key) := by
  induction l with
  | nil => rfl
  | cons a l ih => simp only [List.map_cons, ML.deleteKeys, List.filterMap_cons] at ih ⊢; rw [ih]

/-- Claim C9: for a listing of `n` model objects under `models/`, the
cleanup operation deletes exactly `n - 5` objects (none when `n ≤ 5`),
namely those that are not among the 5 with the most recent last-modified
time: every deleted object is at most as recent as every kept one, and
kept plus deleted together are exactly the listing. -/
theorem cleanup_keeps_five_most_recent (artB now : Str) (st : ML.Store) :
    ML.deleteKeys (ML.cleanup_old_models artB now st).2.1
      = ((List.insertionSort ML.moreRecent
            (ML.listEntries st artB ("models/".toList))).drop 5).map
          (fun o => o.key)
    ∧ (ML.deleteKeys (ML.cleanup_old_models artB now st).2.1).length
      = (ML.listEntries st artB ("models/".toList)).length - 5
    ∧ List.Perm
        ((List.insertionSort ML.moreRecent
            (ML.listEntries st artB ("models/".toList))).take 5
          ++ (List.insertionSort ML.moreRecent
              (ML.listEntries st artB ("models/".toList))).drop 5)
        (ML.listEntries st artB ("models/".toList))
    ∧ (((List.insertionSort ML.moreRecent
          (ML.listEntries st artB ("models/".toList))).drop 5).all (fun d =>
        ((List.insertionSort ML.moreRecent
            (ML.listEntries st artB ("models/".toList))).take 5).all (fun kp =>
          decide (d.lm ≤ kp.lm)))) = true
    ∧ ((ML.listEntries st artB ("models/".toList)).length ≤ 5 →
        (List.insertionSort ML.moreRecent
          (ML.listEntries st artB ("models/".toList))).drop 5 = []) := by
  have hperm := List.perm_insertionSort ML.moreRecent
    (ML.listEntries st artB ("models/".toList))
  have hlen := hperm.length_eq
  have hkeys : ML.deleteKeys (ML.cleanup_old_models artB now st).2.1
      = ((List.insertionSort ML.moreRecent
            (ML.listEntries st artB ("models/".toList))).drop 5).map
          (fun o => o.key) := by
    rw [cleanup_trace_eq]
    simp only [ML.deleteKeys, List.filterMap_cons]
    exact deleteKeys_deleteMap artB _
  refine ⟨hkeys, ?_, ?_, ?_, ?_⟩
  · rw [hkeys, List.length_map, List.length_drop, hlen]
  · rw [List.take_append_drop]
    exact hperm
  · have hs : List.Sorted ML.moreRecent
        (List.insertionSort ML.moreRecent
          (ML.listEntries st artB ("models/".toList))) :=
      List.sorted_insertionSort ML.moreRecent _
    have hp : List.Pairwise ML.moreRecent
        ((List.insertionSort ML.moreRecent
            (ML.listEntries st artB ("models/".toList))).take 5
          ++ (List.insertionSort ML.moreRecent
              (ML.listEntries st artB ("models/".toList))).drop 5) := by
      rw [List.take_append_drop]
      exact hs
    have hmain := (List.pairwise_append.mp hp).2.2
    rw [List.all_eq_true]
    intro d hd
    rw [List.all_eq_true]
    intro kp hk
    exact decide_eq_true (hmain kp hk d hd)
  · intro h
    apply List.drop_eq_nil_of_le
    rw [hlen]
    exact h

theorem cleanup_keeps_five_most_recent_witness :
    ML.deleteKeys (ML.cleanup_old_models ("art-bucket".toList) [] modelStore).2.1
      = [("models/m0".toList)]
    ∧ (List.insertionSort ML.moreRecent
        (ML.listEntries rawStore ("art-bucket".toList) ("models/".toList))).drop 5
      = [] := by
  constructor
  · rw [(cleanup_keeps_five_most_recent ("art-bucket".toList) [] modelStore).1]
    decide
  · exact (cleanup_keeps_five_most_recent ("art-bucket".toList) []
      rawStore).2.2.2.2 (by decide)

/-! ### Lemmas and claims about deletion effects -/

lemma deleteEffs_process (st : ML.Store) (b k : Str) :
    ML.deleteEffs (ML.process_data_file st b k).2.1 = [] := by
  unfold ML.process_data_file
  cases hget : ML.getObject st b k with
  | none => rfl
  | some c =>
    dsimp only
    by_cases hc : c.isEmpty = true
    · rw [if_pos hc]
      rfl
    · rw [if_neg hc]
      rfl

lemma deleteEffs_append (a b : List ML.Eff) :
    ML.deleteEffs (a ++ b) = ML.deleteEffs a ++ ML.deleteEffs b := by
  simp [ML.deleteEffs]

lemma deleteEffs_start (ok : Bool) (ts : Str) :
    ML.deleteEffs (ML.start_training_job ok ts).1 = [] := by
  cases ok <;> rfl

lemma deleteEffs_s3Loop (ok : Bool) (ts : Str) :
    ∀ (rs : List ML.Record) (st : ML.Store),
      ML.deleteEffs (ML.s3Loop ok ts st rs).2.1 = [] := by
  intro rs
  induction rs with
  | nil =>
    intro st
    rfl
  | cons r rs ih =>
    intro st
    by_cases hm : ML.matchesRaw r.key = true
    · rcases ht : ML.should_trigger_training
        (ML.process_data_file st r.bucket r.key).1 r.bucket with _ | _
      all_goals
        simp only [ML.s3Loop, hm, if_true, ht, Bool.false_eq_true, if_false]
      all_goals
        rw [deleteEffs_append, deleteEffs_append, deleteEffs_process, ih]
      · simp [ML.deleteEffs]
      · simp [ML.deleteEffs, deleteEffs_start ok ts]
        have := deleteEffs_start ok ts
        simp [ML.deleteEffs] at this
        exact this
    · have hm' : ML.matchesRaw r.key = false := by
        cases hq : ML.matchesRaw r.key with
        | true => exact absurd hq hm
        | false => rfl
      simp only [ML.s3Loop, hm', Bool.false_eq_true, if_false]
      exact ih st

lemma deleteEffs_processFold (b : Str) :
    ∀ (ks : List Str) (st : ML.Store),
      ML.deleteEffs (ML.processFold b st ks).2 = [] := by
  intro ks
  induction ks with
  | nil =>
    intro st
    rfl
  | cons k ks ih =>
    intro st
    simp only [ML.processFold]
    rw [deleteEffs_append, deleteEffs_process, ih]
    rfl

lemma deleteEffs_cleanup (artB now : Str) (st : ML.Store) :
    ML.deleteEffs (ML.cleanup_old_models artB now st).2.1
      = ((List.insertionSort ML.moreRecent
            (ML.listEntries st artB ("models/".toList))).drop 5).map
          (fun o => ML.Eff.deleteObj artB o.key) := by
  rw [cleanup_trace_eq]
  simp only [ML.deleteEffs, List.filter_cons]
  have : ∀ (l : List ML.Entry),
      (l.map (fun o => ML.Eff.deleteObj artB o.key)).filter (fun e =>
        match e with
        | ML.Eff.deleteObj _ _ => true
        | _ => false)
        = l.map (fun o => ML.Eff.deleteObj artB o.key) := by
    intro l
    induction l with
    | nil => rfl
    | cons a l ih => simp only [List.map_cons, List.filter_cons] at ih ⊢; simp [ih]
  exact this _

/-- Claim C2 (amended): the only handler operation that deletes stored
objects is the `cleanup_old_models` action — on every other dispatch the
trace contains no `delete_object` call; a cleanup dispatch deletes
exactly the listed `models/` objects beyond the 5 most recent. -/
theorem deletes_only_from_cleanup
    (dataB artB : Str) (ext : ML.Ext) (st : ML.Store) (ev : ML.Event) :
    ML.deleteEffs (ML.lambda_handler dataB artB ext st ev).2.1 = []
    ∨ (ev.records = none
       ∧ ev.action = some ("cleanup_old_models".toList)
       ∧ ML.deleteEffs (ML.lambda_handler dataB artB ext st ev).2.1
           = ((List.insertionSort ML.moreRecent
                 (ML.listEntries st artB ("models/".toList))).drop 5).map
               (fun o => ML.Eff.deleteObj artB o.key)) := by
  obtain ⟨rcs, act, trg⟩ := ev
  cases rcs with
  | some rs =>
    left
    exact deleteEffs_s3Loop ext.sagemakerOk ext.ts rs st
  | none =>
    cases act with
    | some a =>
      show ML.deleteEffs (ML.handle_direct_invocation dataB artB ext st
        ⟨none, some a, trg⟩).2.1 = [] ∨ _
      unfold ML.handle_direct_invocation
      dsimp only
      by_cases h1 : (a == ("train_model".toList)) = true
      · left
        rw [if_pos h1]
        exact deleteEffs_start ext.sagemakerOk ext.ts
      · rw [if_neg h1]
        by_cases h2 : (a == ("process_data".toList)) = true
        · left
          rw [if_pos h2]
          show ML.deleteEffs (ML.Eff.listReq dataB ("raw/".toList)
            :: (ML.processFold dataB st _).2) = []
          simp only [ML.deleteEffs, List.filter_cons]
          have := deleteEffs_processFold dataB
            ((ML.listKeys st dataB ("raw/".toList)).filter
              (fun k => endsWithL k (".csv".toList))) st
          simp only [ML.deleteEffs] at this
          exact this
        · rw [if_neg h2]
          by_cases h3 : (a == ("cleanup_old_models".toList)) = true
          · right
            refine ⟨rfl, ?_, ?_⟩
            · rw [beq_iff_eq] at h3
              rw [h3]
            · show ML.deleteEffs (ML.handle_direct_invocation dataB artB ext st
                ⟨none, some a, trg⟩).2.1 = _
              unfold ML.handle_direct_invocation
              dsimp only
              rw [if_neg h1, if_neg h2, if_pos h3]
              exact deleteEffs_cleanup artB ext.now st
          · left
            rw [if_neg h3]
            rfl
    | none =>
      cases trg with
      | some t =>
        left
        show ML.deleteEffs (ML.handle_scheduled_trigger ext st
          ⟨none, none, some t⟩).2.1 = []
        unfold ML.handle_scheduled_trigger
        dsimp only [Option.getD]
        rw [if_pos (by decide)]
        exact deleteEffs_start ext.sagemakerOk ext.ts
      | none =>
        left
        rfl

theorem cleanup_deletes_objects_cex :
    ML.deleteEffs (ML.lambda_handler ("data-bucket".toList) ("art-bucket".toList)
      mlExtW modelStore cleanupEvent).2.1 ≠ [] := by decide

/-! ### The response contract of the top-level handlers -/

lemma respHasStd_create_ML (sc : Int) (msg : Str) (data : Option PyVal) (now : Str) :
    respHasStd (ML.create_response sc msg data now) = true := by
  cases data <;> rfl

lemma respHasStd_create_BI (sc : Int) (msg : Str) (data : Option PyVal) (now : Str) :
    respHasStd (BI.create_response sc msg data now) = true := by
  cases data <;> rfl

lemma statusOf_create_ML (sc : Int) (msg : Str) (data : Option PyVal) (now : Str) :
    statusOf (ML.create_response sc msg data now) = some (PyVal.num sc) := by
  cases data <;> rfl

lemma statusOf_create_BI (sc : Int) (msg : Str) (data : Option PyVal) (now : Str) :
    statusOf (BI.create_response sc msg data now) = some (PyVal.num sc) := by
  cases data <;> rfl

/-- Claim C8 (amended): the top-level handlers are total and, except on
the dispatches that return `start_training_job`'s raw result dict
(direct action `train_model` and scheduled triggers), always return a
record with `statusCode`, `message` and `timestamp`; an unrecognized
event shape yields 400; in batch inference a missing model or missing
input data yields 404 and a raised prediction or save exception yields
500 (always with the three standard fields). -/
theorem handler_response_contract :
    (∀ (dataB artB : Str) (ext : ML.Ext) (st : ML.Store) (ev : ML.Event),
      isTrainDispatch ev = false →
      respHasStd (ML.lambda_handler dataB artB ext st ev).2.2 = true)
    ∧ (∀ (dataB artB : Str) (ext : ML.Ext) (st : ML.Store) (ev : ML.Event),
      ev.records = none → ev.action = none → ev.trigger_type = none →
      statusOf (ML.lambda_handler dataB artB ext st ev).2.2
        = some (PyVal.num 400))
    ∧ (∀ (dataB artB : Str) (ext : BI.Ext) (ev : BI.Event),
      respHasStd (BI.lambda_handler dataB artB ext ev).2 = true)
    ∧ (∀ (dataB artB : Str) (ext : BI.Ext) (ev : BI.Event),
      ext.modelRes = none →
      statusOf (BI.lambda_handler dataB artB ext ev).2 = some (PyVal.num 404))
    ∧ (∀ (dataB artB : Str) (ext : BI.Ext) (ev : BI.Event) (m : BI.Model),
      ext.modelRes = some m → ext.dataRes = none →
      statusOf (BI.lambda_handler dataB artB ext ev).2 = some (PyVal.num 404))
    ∧ (∀ (dataB artB : Str) (ext : BI.Ext) (ev : BI.Event)
        (m : BI.Model) (f : BI.Frame),
      ext.modelRes = some m → ext.dataRes = some f → ext.predictOk = false →
      statusOf (BI.lambda_handler dataB artB ext ev).2 = some (PyVal.num 500))
    ∧ (∀ (dataB artB : Str) (ext : BI.Ext) (ev : BI.Event)
        (m : BI.Model) (f : BI.Frame),
      ext.modelRes = some m → ext.dataRes = some f → ext.predictOk = true →
      ext.putOk = false →
      statusOf (BI.lambda_handler dataB artB ext ev).2 = some (PyVal.num 500)) := by
  refine ⟨?_, ?_, ?_, ?_, ?_, ?_, ?_⟩
  · intro dataB artB ext st ev h
    obtain ⟨rcs, act, trg⟩ := ev
    cases rcs with
    | some rs =>
      exact respHasStd_create_ML 200 ("Processed files".toList)
        (some PyVal.other) ext.now
    | none =>
      cases act with
      | some a =>
        have ha : ¬(a == ("train_model".toList)) = true := by
          intro hc
          rw [beq_iff_eq] at hc
          subst hc
          simp [isTrainDispatch] at h
        show respHasStd (ML.handle_direct_invocation dataB artB ext st
          ⟨none, some a, trg⟩).2.2 = true
        unfold ML.handle_direct_invocation
        dsimp only
        rw [if_neg ha]
        by_cases h2 : (a == ("process_data".toList)) = true
        · rw [if_pos h2]
          exact respHasStd_create_ML 200 ("Processed data files".toList) none ext.now
        · rw [if_neg h2]
          by_cases h3 : (a == ("cleanup_old_models".toList)) = true
          · rw [if_pos h3]
            exact respHasStd_create_ML 200 ("Cleaned up old models".toList)
              none ext.now
          · rw [if_neg h3]
            exact respHasStd_create_ML 400 ("Unknown action".toList) none ext.now
      | none =>
        cases trg with
        | some t => simp [isTrainDispatch] at h
        | none =>
          exact respHasStd_create_ML 400 ("Unknown event type".toList) none ext.now
  · intro dataB artB ext st ev h1 h2 h3
    obtain ⟨rcs, act, trg⟩ := ev
    dsimp only at h1 h2 h3
    subst h1
    subst h2
    subst h3
    exact statusOf_create_ML 400 ("Unknown event type".toList) none ext.now
  · intro dataB artB ext ev
    obtain ⟨mr, dr, pok, puok, ts, now⟩ := ext
    cases mr with
    | none => exact respHasStd_create_BI 404 ("Model not found".toList) none now
    | some m =>
      cases dr with
      | none =>
        exact respHasStd_create_BI 404 ("Input data not found".toList) none now
      | some f =>
        cases pok with
        | false =>
          exact respHasStd_create_BI 500 ("Batch inference error".toList) none now
        | true =>
          cases puok with
          | false =>
            exact respHasStd_create_BI 500 ("Batch inference error".toList) none now
          | true =>
            exact respHasStd_create_BI 200
              ("Batch inference completed successfully".toList)
              (some PyVal.other) now
  · intro dataB artB ext ev hm
    obtain ⟨mr, dr, pok, puok, ts, now⟩ := ext
    dsimp only at hm
    subst hm
    exact statusOf_create_BI 404 ("Model not found".toList) none now
  · intro dataB artB ext ev m hm hd
    obtain ⟨mr, dr, pok, puok, ts, now⟩ := ext
    dsimp only at hm hd
    subst hm
    subst hd
    exact statusOf_create_BI 404 ("Input data not found".toList) none now
  · intro dataB artB ext ev m f hm hd hp
    obtain ⟨mr, dr, pok, puok, ts, now⟩ := ext
    dsimp only at hm hd hp
    subst hm
    subst hd
    subst hp
    exact statusOf_create_BI 500 ("Batch inference error".toList) none now
  · intro dataB artB ext ev m f hm hd hp hw
    obtain ⟨mr, dr, pok, puok, ts, now⟩ := ext
    dsimp only at hm hd hp hw
    subst hm
    subst hd
    subst hp
    subst hw
    exact statusOf_create_BI 500 ("Batch inference error".toList) none now

theorem handler_train_action_missing_keys_cex :
    respHasStd (ML.lambda_handler ("data-bucket".toList) ("art-bucket".toList)
      mlExtW [] ⟨none, some ("train_model".toList), none⟩).2.2 = false := by
  decide

theorem handler_response_contract_witness :
    statusOf (BI.lambda_handler ("data-bucket".toList) ("art-bucket".toList)
        ⟨none, some inputFrame, true, true, [], []⟩ ⟨none, none, none⟩).2
      = some (PyVal.num 404)
    ∧ respHasStd (ML.lambda_handler ("data-bucket".toList) ("art-bucket".toList)
        mlExtW modelStore cleanupEvent).2.2 = true :=
  ⟨handler_response_contract.2.2.2.1 ("data-bucket".toList) ("art-bucket".toList)
      ⟨none, some inputFrame, true, true, [], []⟩ ⟨none, none, none⟩ rfl,
   handler_response_contract.1 ("data-bucket".toList) ("art-bucket".toList)
      mlExtW modelStore cleanupEvent (by decide)⟩

/-! ### Claims about batch inference -/

lemma perform_length (m : BI.Model) (f : BI.Frame) :
    (BI.perform_batch_predictions m f).length = f.rows.length := by
  simp [BI.perform_batch_predictions, BI.fillna, BI.project]

/-- Claim C6: a successful batch-inference run on an input of `n` rows
writes exactly one output object; it has exactly `n` rows, and each is
the corresponding input row extended with its prediction value(s) (plus
the timestamp and model-version metadata columns) — no streaming, no
incremental update. -/
theorem batch_inference_single_bulk_output
    (dataB artB : Str) (ext : BI.Ext) (ev : BI.Event)
    (m : BI.Model) (f : BI.Frame)
    (hm : ext.modelRes = some m) (hd : ext.dataRes = some f)
    (hp : ext.predictOk = true) (hw : ext.putOk = true) :
    (BI.putBodies (BI.lambda_handler dataB artB ext ev).1).length = 1
    ∧ ∀ out ∈ BI.putBodies (BI.lambda_handler dataB artB ext ev).1,
        out.rows.length = f.rows.length
        ∧ out.rows = (f.rows.zip (BI.perform_batch_predictions m f)).map
            (fun rp => rp.1 ++ rp.2
              ++ [BI.Cell.txt ext.now, BI.Cell.txt ("latest".toList)]) := by
  obtain ⟨mr, dr, pok, puok, ts, now⟩ := ext
  dsimp only at hm hd hp hw ⊢
  subst hm
  subst hd
  subst hp
  subst hw
  have hpb : BI.putBodies (BI.lambda_handler dataB artB
      ⟨some m, some f, true, true, ts, now⟩ ev).1
      = [BI.outputFrame m.arity now (BI.perform_batch_predictions m f) f] := rfl
  rw [hpb]
  refine ⟨rfl, ?_⟩
  intro out hout
  have hout' := List.mem_singleton.mp hout
  subst hout'
  constructor
  · simp [BI.outputFrame, List.length_zip, perform_length]
  · rfl

theorem batch_inference_single_bulk_output_witness :
    (BI.putBodies (BI.lambda_handler ("data-bucket".toList) ("art-bucket".toList)
      okExt ⟨none, none, none⟩).1).length = 1 :=
  (batch_inference_single_bulk_output ("data-bucket".toList) ("art-bucket".toList)
    okExt ⟨none, none, none⟩ constModel inputFrame rfl rfl rfl rfl).1

/-- Claim C1 (the code contradicts it): batch inference never reloads
the feature scaler.  Every `get_object` the batch handler performs
targets either the model key or the input-data key — no other artifact
is read, in particular not the scaler that `save_model_artifacts`
persists alongside the model (conjunct three); at the default event the
two reads are exactly the model artifact and the input file, and the
input features reach the model without any scaler transform. -/
theorem batch_inference_never_reloads_scaler :
    (∀ (dataB artB : Str) (ext : BI.Ext) (ev : BI.Event),
      ((BI.getTargets (BI.lambda_handler dataB artB ext ev).1).all (fun p =>
        ((p.1 == artB)
          && (p.2 == ev.model_key.getD ("models/latest_model.joblib".toList)))
        || ((p.1 == dataB)
          && (p.2 == ev.input_data_key.getD
              ("processed/batch_input.csv".toList))))) = true)
    ∧ BI.getTargets (BI.lambda_handler ("data-bucket".toList)
        ("art-bucket".toList) okExt ⟨none, none, none⟩).1
      = [(("art-bucket".toList), ("models/latest_model.joblib".toList)),
         (("data-bucket".toList), ("processed/batch_input.csv".toList))]
    ∧ (∀ (artB ts : Str),
        TR.Eff.upload artB ("models/latest_scaler.joblib".toList)
          TR.Artifact.scaler ∈ TR.main artB ts) := by
  refine ⟨?_, ?_, ?_⟩
  · intro dataB artB ext ev
    obtain ⟨mr, dr, pok, puok, ts, now⟩ := ext
    cases mr with
    | none => simp [BI.lambda_handler, BI.getTargets]
    | some m =>
      cases dr with
      | none => simp [BI.lambda_handler, BI.getTargets]
      | some f =>
        cases pok <;> cases puok <;>
          simp [BI.lambda_handler, BI.getTargets, BI.save_predictions_to_s3]
  · decide
  · intro artB ts
    simp [TR.main, TR.save_model_artifacts]
